import Mathlib

/-!
Verification of the cursor-docs-crawler repository.

The Python sources are shallowly embedded: strings are modelled as `List Char`
(`Str`), Python's `set` as duplicate-free insertion lists, exceptions as
`Except`/`Option`, and the stateful `URLManager` as a record with explicit
state-passing operations plus a `Reachable` relation over operation sequences.
Standard-library calls (`urllib.parse.urlparse`, `urljoin`, `str` methods) are
modelled by executable Lean functions mirroring CPython behaviour for the URL
and string shapes the crawler manipulates.
-/

set_option maxRecDepth 4000

/-- Python strings, modelled as lists of characters. -/
abbrev Str := List Char

/-- Lowercase a string, `str.lower()` (ASCII, as used by the crawler). -/
def lowerStr (s : Str) : Str := s.map Char.toLower

/-- `str.lstrip(c)`: drop every leading occurrence of `c`. -/
def lstripChar (c : Char) (s : Str) : Str := s.dropWhile (· = c)

/-- `str.rstrip(c)`: drop every trailing occurrence of `c`. -/
def rstripChar (c : Char) (s : Str) : Str := (s.reverse.dropWhile (· = c)).reverse

/-- `str.strip(c)`: drop leading and trailing occurrences of `c`. -/
def stripChar (c : Char) (s : Str) : Str := rstripChar c (lstripChar c s)

/-- `str.strip()`: drop leading and trailing whitespace. -/
def stripWs (s : Str) : Str :=
  ((s.dropWhile Char.isWhitespace).reverse.dropWhile Char.isWhitespace).reverse

/-- Python `sub in s` substring containment. -/
def containsSub (needle : Str) : Str → Bool
  | [] => needle.isPrefixOf []
  | x :: xs => needle.isPrefixOf (x :: xs) || containsSub needle xs

/-- Python `s.split(c)` for a one-character separator: keeps empty fields,
`''.split(c) == ['']`. -/
def splitChar (c : Char) : Str → List Str
  | [] => [[]]
  | x :: xs =>
    let r := splitChar c xs
    if x = c then [] :: r
    else
      match r with
      | [] => [[x]]
      | s :: ss => (x :: s) :: ss

/-- Python `sep.join(parts)` for a one-character separator. -/
def joinChar (c : Char) : List Str → Str
  | [] => []
  | [p] => p
  | p :: ps => p ++ c :: joinChar c ps

/-- Python `s.replace(a, b)` for one-character `a`, `b` (single characters make
the non-overlapping left-to-right scan a plain map). -/
def replaceChar (a b : Char) (s : Str) : Str := s.map fun x => if x = a then b else x

/-- Fuel-driven core of `str.replace` for multi-character patterns: scan left to
right, replacing non-overlapping occurrences. -/
def replaceSubAux (old new : Str) : Nat → Str → Str
  | 0, l => l
  | _ + 1, [] => []
  | fuel + 1, x :: xs =>
    if old ≠ [] ∧ old.isPrefixOf (x :: xs) then
      new ++ replaceSubAux old new fuel ((x :: xs).drop old.length)
    else
      x :: replaceSubAux old new fuel xs

/-- Python `s.replace(old, new)` for a non-empty `old`. -/
def replaceSub (old new s : Str) : Str := replaceSubAux old new s.length s

/-- Decimal digits of a natural number, most significant first. -/
def natDigitsAux : Nat → Nat → Str
  | 0, _ => []
  | fuel + 1, n =>
    if n < 10 then [Char.ofNat (48 + n)]
    else natDigitsAux fuel (n / 10) ++ [Char.ofNat (48 + n % 10)]

/-- Decimal rendering of a natural number, `str(n)`. -/
def natToStr (n : Nat) : Str := natDigitsAux (n + 1) n

/-- Python `f"{n:03d}"`: zero-pad the decimal rendering to width 3. -/
def pad3 (n : Nat) : Str :=
  let s := natToStr n
  List.replicate (3 - s.length) '0' ++ s

/-- Python `int(s)` on an unsigned decimal literal that may contain single
underscore digit-group separators (`int('1_2') == 12`); `none` models
`ValueError`. -/
def pyIntUnderscore (s : Str) : Option Nat :=
  let rec go (acc : Nat) (afterDigit : Bool) : Str → Option Nat
    | [] => if afterDigit then some acc else none
    | c :: cs =>
      if c.isDigit then go (acc * 10 + (c.toNat - 48)) true cs
      else if c = '_' then
        if afterDigit then
          match cs with
          | d :: _ => if d.isDigit then go acc false cs else none
          | [] => none
        else none
      else none
  go 0 false s

/-- Last element of a list of strings with default `[]`; Python's `xs[-1]` for
the never-empty output of `split`. -/
def lastStr (l : List Str) : Str := l.getLastD []

/-- Python string `<`: lexicographic comparison of code points. -/
def ltStr : Str → Str → Bool
  | [], [] => false
  | [], _ :: _ => true
  | _ :: _, [] => false
  | a :: as, b :: bs => if a.val < b.val then true else if b.val < a.val then false else ltStr as bs

/-- Python string `<=`, derived from `<` on a total order. -/
def leStr (a b : Str) : Bool := ! ltStr b a

/-! ### Model of `urllib.parse` (CPython) for the URL shapes the crawler uses -/

/-- Split a string at the first occurrence of `c`: the part before, and
`some` part after when `c` occurs. -/
def splitFirstAt (c : Char) : Str → Str × Option Str
  | [] => ([], none)
  | x :: xs =>
    if x = c then ([], some xs)
    else
      let r := splitFirstAt c xs
      (x :: r.1, r.2)

/-- Characters CPython accepts inside a URL scheme. -/
def isSchemeChar (c : Char) : Bool := c.isAlphanum || c = '+' || c = '-' || c = '.'

/-- Scheme extraction of CPython `urlsplit`: the prefix before the first `:`
is a scheme when non-empty, led by a letter, and made of scheme characters;
the scheme is lowercased. Returns `(scheme, remainder)`. -/
def splitScheme (u : Str) : Str × Str :=
  match splitFirstAt ':' u with
  | (pre, some post) =>
    if pre ≠ [] ∧ (match pre with | x :: _ => x.isAlpha | [] => false) = true ∧
        pre.all isSchemeChar then
      (lowerStr pre, post)
    else ([], u)
  | (_, none) => ([], u)

/-- Result of `urllib.parse.urlparse` (the crawler never reads `params`). -/
structure PyUrl where
  scheme : Str
  netloc : Str
  path : Str
  query : Str
  fragment : Str
deriving DecidableEq, Repr

/-- Model of `urllib.parse.urlparse` with `allow_fragments=True`: split the
fragment at the first `#`, extract the scheme, take the netloc after `//` up
to the first `/`, `?` or `#`, and split the query at the first `?`. -/
def pyUrlparse (u : Str) : PyUrl :=
  let bf := splitFirstAt '#' u
  let frag := bf.2.getD []
  let sr := splitScheme bf.1
  let nl :=
    if ['/', '/'].isPrefixOf sr.2 then
      let after := sr.2.drop 2
      (after.takeWhile (fun c => ¬ (c = '/' ∨ c = '?' ∨ c = '#')),
       after.dropWhile (fun c => ¬ (c = '/' ∨ c = '?' ∨ c = '#')))
    else ([], sr.2)
  let pq := splitFirstAt '?' nl.2
  { scheme := sr.1, netloc := nl.1, path := pq.1, query := pq.2.getD [], fragment := frag }

/-- `urlunsplit`-style reassembly used by `urljoin`. -/
def pyUnparse (scheme netloc path query fragment : Str) : Str :=
  (if scheme ≠ [] then scheme ++ [':'] else []) ++
  (if netloc ≠ [] then '/' :: '/' :: netloc else []) ++ path ++
  (if query ≠ [] then '?' :: query else []) ++
  (if fragment ≠ [] then '#' :: fragment else [])

/-- The base path up to and including its last `/` (empty when it has none):
the directory against which a relative reference is merged. -/
def dirOfPath (p : Str) : Str := (p.reverse.dropWhile (· ≠ '/')).reverse

/-- Model of `urllib.parse.urljoin` for the reference shapes the crawler
produces: absolute URLs, network-path (`//…`), absolute-path (`/…`) and plain
relative references. Dot-segment resolution is not modelled; the crawler only
joins absolute-path references in practice. -/
def pyUrljoin (base url : Str) : Str :=
  if url = [] then base
  else
    let bp := pyUrlparse base
    let up := pyUrlparse url
    if up.scheme ≠ [] ∧ up.scheme ≠ bp.scheme then url
    else if up.netloc ≠ [] then pyUnparse bp.scheme up.netloc up.path up.query up.fragment
    else if up.path.head? = some '/' then pyUnparse bp.scheme bp.netloc up.path up.query up.fragment
    else if up.path = [] then
      pyUnparse bp.scheme bp.netloc bp.path (if up.query ≠ [] then up.query else bp.query)
        up.fragment
    else pyUnparse bp.scheme bp.netloc (dirOfPath bp.path ++ up.path) up.query up.fragment

/-! ### `src/url_manager.py`: the crawl frontier -/

/-- Python `set.add` on an insertion-ordered duplicate-free list model. -/
def insertSet (a : Str) (l : List Str) : List Str := if a ∈ l then l else l ++ [a]

/-- State of `URLManager`: the queue, the three membership sets, the statistics
counters, and the configuration fixed at construction. -/
structure URLManager where
  base_url : Str
  max_pages : Option Nat
  domain : Str
  urls_to_visit : List Str
  visited_urls : List Str
  failed_urls : List Str
  skipped_urls : List Str
  total_found : Nat
  visited : Nat
  failed : Nat
  skipped : Nat
  duplicates : Nat
deriving DecidableEq, Repr

namespace URLManager

/-- `URLManager._normalize_url`: resolve relative references against the base,
re-parse, drop the fragment, keep the query, and strip trailing slashes unless
the path is the root `/`. -/
def normalize_url (base url : Str) : Str :=
  if url = [] then url
  else
    let u1 :=
      if url.head? = some '/' then pyUrljoin base url
      else if ¬ ("http://".data.isPrefixOf url ∨ "https://".data.isPrefixOf url) then
        pyUrljoin base url
      else url
    let p := pyUrlparse u1
    let n1 := p.scheme ++ "://".data ++ p.netloc ++ p.path
    let n2 := if p.query ≠ [] then n1 ++ '?' :: p.query else n1
    if n2.getLast? = some '/' ∧ p.path.length > 1 then rstripChar '/' n2 else n2

/-- File extensions `should_crawl` rejects. -/
def skip_extensions : List Str :=
  [".pdf", ".jpg", ".jpeg", ".png", ".gif", ".css", ".js", ".xml", ".zip"].map String.data

/-- Path substrings `should_crawl` rejects. -/
def skip_paths : List Str :=
  ["/api/", "/admin/", "/login/", "/logout/", "/search/"].map String.data

/-- `URLManager.should_crawl`: same-domain HTML-page filter. The Python body
wraps its checks in `try/except` returning `False`; the model is total, so the
handler is unreachable. -/
def should_crawl (domain url : Str) : Bool :=
  if url = [] then false
  else
    let p := pyUrlparse url
    if p.scheme = [] ∨ p.netloc = [] then false
    else if p.netloc ≠ domain then false
    else if p.fragment ≠ [] ∧ p.path = [] then false
    else
      let path := lowerStr p.path
      if skip_extensions.any (fun e => e.isSuffixOf path) then false
      else if skip_paths.any (fun sp => containsSub sp path) then false
      else true

/-- Whether the page-limit guard of `add_url` fires: `max_pages` is truthy and
`total_found` has reached it. -/
def capReached (s : URLManager) : Bool :=
  match s.max_pages with
  | none => false
  | some m => decide (m ≠ 0) && decide (s.total_found ≥ m)

/-- `URLManager.add_url`: normalize, filter with `should_crawl`, reject
duplicates already queued or visited, enforce the page cap (recording a skip),
otherwise append to the queue and count the discovery. Returns the `bool` the
Python method returns together with the updated state. -/
def add_url (s : URLManager) (url : Str) : Bool × URLManager :=
  if url = [] then (false, s)
  else
    let n := normalize_url s.base_url url
    if should_crawl s.domain n then
      if n ∈ s.visited_urls ∨ n ∈ s.urls_to_visit then
        (false, { s with duplicates := s.duplicates + 1 })
      else if capReached s then
        (false, { s with skipped_urls := insertSet n s.skipped_urls, skipped := s.skipped + 1 })
      else
        (true, { s with urls_to_visit := s.urls_to_visit ++ [n],
                        total_found := s.total_found + 1 })
    else (false, s)

/-- `URLManager.__init__`: strip trailing slashes from the base URL, record the
domain, zero the statistics, and add the base URL itself to the queue. -/
def make (base_url : Str) (max_pages : Option Nat) : URLManager :=
  let b := rstripChar '/' base_url
  let s0 : URLManager :=
    { base_url := b, max_pages := max_pages, domain := (pyUrlparse b).netloc
      urls_to_visit := [], visited_urls := [], failed_urls := [], skipped_urls := []
      total_found := 0, visited := 0, failed := 0, skipped := 0, duplicates := 0 }
  (add_url s0 b).2

/-- `URLManager.get_next_url`: pop the queue head, `none` when empty. -/
def get_next_url (s : URLManager) : Option Str × URLManager :=
  match s.urls_to_visit with
  | [] => (none, s)
  | u :: rest => (some u, { s with urls_to_visit := rest })

/-- `URLManager.mark_visited`: add the normalized URL to the visited set and
increment the visited counter. -/
def mark_visited (s : URLManager) (url : Str) : URLManager :=
  let n := normalize_url s.base_url url
  { s with visited_urls := insertSet n s.visited_urls, visited := s.visited + 1 }

/-- `URLManager.mark_failed`: add the normalized URL to the failed set and
increment the failed counter. -/
def mark_failed (s : URLManager) (url : Str) : URLManager :=
  let n := normalize_url s.base_url url
  { s with failed_urls := insertSet n s.failed_urls, failed := s.failed + 1 }

/-- States reachable from `URLManager.__init__` by any sequence of the four
frontier operations. -/
inductive Reachable : URLManager → Prop
  | made (base_url : Str) (max_pages : Option Nat) : Reachable (make base_url max_pages)
  | add {s : URLManager} (url : Str) : Reachable s → Reachable (add_url s url).2
  | next {s : URLManager} : Reachable s → Reachable (get_next_url s).2
  | visit {s : URLManager} (url : Str) : Reachable s → Reachable (mark_visited s url)
  | fail {s : URLManager} (url : Str) : Reachable s → Reachable (mark_failed s url)

end URLManager

/-! ### `src/page_sorter.py` and `src/models.py` -/

namespace PageSorter

/-- Numeric-prefix handling block of `PageSorter._clean_path_part`: split a
digit-led segment into a numeric head and a text tail at the first character
that is neither a digit nor `_`; when the stripped numeric head parses, emit it
zero-padded to three digits. A segment made only of digits and underscores
never breaks out of the loop and is left unchanged. -/
def numericPrefixSplit (l : Str) : Str :=
  match l.findIdx? (fun c => ¬ (c.isDigit ∨ c = '_')) with
  | none => l
  | some i =>
    let num := rstripChar '_' (l.take i)
    let text := lstripChar '_' (l.drop i)
    if num ≠ [] then
      match pyIntUnderscore num with
      | some n => if text ≠ [] then pad3 n ++ '_' :: text else pad3 n
      | none => l
    else l

/-- `PageSorter._clean_path_part`: drop `.html`/`.htm`, map `-` and `.` to `_`,
zero-pad numeric prefixes, and fall back to `'empty'`/`'unnamed'`. -/
def clean_path_part (part : Str) : Str :=
  if part = [] then "empty".data
  else
    let c1 := replaceSub ".html".data [] part
    let c2 := replaceSub ".htm".data [] c1
    let c3 := replaceChar '.' '_' (replaceChar '-' '_' c2)
    let c4 :=
      match c3 with
      | [] => c3
      | x :: _ => if x.isDigit then numericPrefixSplit c3 else c3
    if c4 = [] then "unnamed".data else c4

/-- The priority table of `PageSorter.generate_order_key`. -/
def priorityKey (path : Str) : Option Str :=
  if path = "getting-started".data then some "001_getting_started".data
  else if path = "quickstart".data then some "001_quickstart".data
  else if path = "introduction".data then some "002_introduction".data
  else if path = "overview".data then some "003_overview".data
  else if path = "installation".data then some "004_installation".data
  else if path = "setup".data then some "005_setup".data
  else none

/-- `PageSorter.generate_order_key`: root and index paths map to `000_index`,
the priority slugs to their reserved keys, and any other path to depth-prefixed
cleaned segments joined by `_`. The Python `except` fallback (`999_` plus the
URL) is unreachable in the total model. -/
def generate_order_key (url : Str) : Str :=
  let path := stripChar '/' (pyUrlparse url).path
  if path = [] ∨ path = "index".data ∨ path = "index.html".data ∨ path = "home".data then
    "000_index".data
  else
    match priorityKey path with
    | some k => k
    | none =>
      let parts := splitChar '/' path
      joinChar '_' (parts.enum.map fun ip => pad3 ip.1 ++ '_' :: clean_path_part ip.2)

end PageSorter

/-- `models.PageContent`: processed page content ready for document assembly. -/
structure PageContent where
  url : Str
  title : Str
  content_html : Str
  text_content : Str
  images : List Str
  order_key : Str
  final_url : Option Str
deriving DecidableEq, Repr

namespace PageContent

/-- `PageContent._generate_order_key`: like the sorter's key but with no
priority table, no `home` alias, and only `.html` removal and `-` to `_`
cleaning per segment. -/
def generate_order_key_model (url : Str) : Str :=
  let path := stripChar '/' (pyUrlparse url).path
  if path = [] ∨ path = "index".data ∨ path = "index.html".data then "000_index".data
  else
    let parts := splitChar '/' path
    joinChar '_' (parts.enum.map fun ip =>
      pad3 ip.1 ++ '_' :: replaceChar '-' '_' (replaceSub ".html".data [] ip.2))

/-- Python `str.title()` (ASCII): uppercase a letter not preceded by a letter,
lowercase one that is, leave other characters alone. -/
def pyTitleAux : Bool → Str → Str
  | _, [] => []
  | prevAlpha, x :: xs =>
    (if x.isAlpha then if prevAlpha then x.toLower else x.toUpper else x) ::
      pyTitleAux x.isAlpha xs

/-- Python `str.title()`. -/
def pyTitle (s : Str) : Str := pyTitleAux false s

/-- `PageContent._extract_title_from_url`: `Home` for the root path, otherwise
the last path segment with `-`/`_` replaced by spaces and title-cased. -/
def extract_title_from_url (url : Str) : Str :=
  let path := stripChar '/' (pyUrlparse url).path
  if path = [] then "Home".data
  else pyTitle (replaceChar '_' ' ' (replaceChar '-' ' ' (lastStr (splitChar '/' path))))

/-- `PageContent.__post_init__` applied to the dataclass fields: derive the
order key when empty, then derive the title when empty. -/
def make (url title content_html text_content : Str) (images : List Str)
    (order_key : Str) (final_url : Option Str) : PageContent :=
  { url := url
    title := if title = [] then extract_title_from_url url else title
    content_html := content_html
    text_content := text_content
    images := images
    order_key := if order_key = [] then generate_order_key_model url else order_key
    final_url := final_url }

/-- `PageContent.is_valid`. -/
def is_valid (p : PageContent) : Bool :=
  decide (p.url ≠ []) && decide (p.title ≠ []) &&
    (decide (p.content_html ≠ []) || decide (p.text_content ≠ []))

end PageContent

namespace PageSorter

/-- Stable insertion into a key-sorted list: the incoming earlier page stays
ahead of later pages with an equal key, matching Python's stable `sorted`. -/
def insertByKey (p : PageContent) : List PageContent → List PageContent
  | [] => [p]
  | q :: qs => if leStr p.order_key q.order_key then p :: q :: qs else q :: insertByKey p qs

/-- Stable sort by `order_key`, modelling `sorted(pages, key=lambda p: p.order_key)`. -/
def sortByKey : List PageContent → List PageContent
  | [] => []
  | p :: ps => insertByKey p (sortByKey ps)

/-- `PageSorter.sort_pages`: fill in a key for any page whose `order_key` is
empty, then stable-sort by key. -/
def sort_pages (pages : List PageContent) : List PageContent :=
  sortByKey (pages.map fun p =>
    if p.order_key = [] then { p with order_key := generate_order_key p.url } else p)

end PageSorter

/-! ### `src/content_parser.py`: error fallback and image classification -/

/-- `models.PageData`: raw page data handed to the parser. `crawled_at` (a
wall-clock timestamp) and `links` play no role in the verified claims and the
timestamp is not representable in a pure model; both are omitted. -/
structure PageData where
  url : Str
  title : Str
  html_content : Str
  status_code : Nat
  final_url : Option Str
deriving DecidableEq, Repr

/-- `PageData.__post_init__`: reject an empty URL, and empty HTML on a 200
response; normalize the URL by stripping trailing slashes. -/
def PageData.post_init (p : PageData) : Except Str PageData :=
  if p.url = [] then .error "URL cannot be empty".data
  else if p.html_content = [] ∧ p.status_code = 200 then
    .error "HTML content cannot be empty for successful requests".data
  else .ok { p with url := rstripChar '/' p.url }

namespace ContentParser

/-- The cleaned markup, plain text and image list produced by the happy-path
pipeline of `ContentParser.parse_page` (stages 1-5 operate on a BeautifulSoup
tree and are abstracted as one fallible function below). -/
structure ParsedParts where
  content_html : Str
  text_content : Str
  images : List Str
deriving DecidableEq, Repr

/-- `ContentParser.parse_page`: run the pipeline; on any raised error, build
the fallback page from the first 1000 characters of the raw HTML's stripped
text wrapped in a marker paragraph, with the title defaulted to `Error Page`.
`getTextStrip` models `BeautifulSoup(...).get_text(strip=True)`, which is
total on arbitrary input, so the innermost `except` (the "ultimate fallback")
is unreachable in the model. -/
def parse_page (getTextStrip : Str → Str) (pipeline : PageData → Except Str ParsedParts)
    (pd : PageData) : PageContent :=
  match pipeline pd with
  | .ok parts =>
    PageContent.make pd.url pd.title parts.content_html parts.text_content parts.images []
      pd.final_url
  | .error _ =>
    let basic_text := (getTextStrip pd.html_content).take 1000
    let basic_title := if pd.title = [] then "Error Page".data else pd.title
    PageContent.make pd.url basic_title
      ("<p>Content parsing failed. Raw text preview:</p><pre>".data ++ basic_text ++
        "</pre>".data)
      basic_text [] [] none

/-- The attributes of an `<img>` element read by the image classifiers. The
DOM context is flattened to what the two functions inspect: whether some
ancestor carries `data-name="frame"`, and the class lists of the ancestors
walked by the parent loop. -/
structure ImgTag where
  alt : Str
  width : Option Str
  height : Option Str
  cssClasses : List Str
  hasFrameAncestor : Bool
  ancestorClasses : List (List Str)
deriving DecidableEq, Repr

/-- Python `int(attr)` for a width/height attribute string; `none` models
`ValueError`. -/
def attrToInt (s : Str) : Option Int :=
  let t := stripWs s
  match t with
  | '-' :: rest => (pyIntUnderscore rest).map (fun n => -(n : Int))
  | '+' :: rest => (pyIntUnderscore rest).map (fun n => (n : Int))
  | _ => (pyIntUnderscore t).map (fun n => (n : Int))

/-- URL patterns of `_is_documentation_image`. -/
def doc_image_patterns : List Str :=
  ["mintlify.s3", "/images/", "/screenshots/", "/docs/", "/assets/", "documentation",
   "tutorial", "guide", "example", "get-started"].map String.data

/-- `ContentParser._is_documentation_image`: keep-rules evaluated in source
order — `codebase-indexing` URLs, frame ancestry, alt text longer than 10
characters, the `app-logo.svg` exclusion, documentation URL patterns,
dimensions above 100, and ancestor content classes. -/
def is_documentation_image (img : ImgTag) (src : Str) : Bool :=
  if containsSub "codebase-indexing".data (lowerStr src) then true
  else if img.hasFrameAncestor then true
  else if stripWs img.alt ≠ [] ∧ (stripWs img.alt).length > 10 then true
  else if containsSub "app-logo.svg".data (lowerStr src) then false
  else if doc_image_patterns.any (fun p => containsSub p (lowerStr src)) then true
  else
    let bySize : Bool :=
      match img.width, img.height with
      | some w, some h =>
        if w ≠ [] ∧ h ≠ [] then
          match attrToInt w, attrToInt h with
          | some wi, some hi => decide (wi > 100) || decide (hi > 100)
          | _, _ => false
        else false
      | _, _ => false
    if bySize then true
    else img.ancestorClasses.any fun classes =>
      classes.any fun cl =>
        ["content", "article", "main", "documentation", "frame"].any fun p =>
          containsSub p.data (lowerStr cl)

/-- URL patterns of `_is_ui_icon`. -/
def icon_url_patterns : List Str :=
  ["favicon", "/icons/", "icon.", "app-logo.svg", "data:image/svg+xml"].map String.data

/-- `ContentParser._is_ui_icon`: a documentation image is never an icon;
otherwise images are icons when both declared dimensions are at most 24, a
class mentions `icon`/`favicon`, the URL matches an icon pattern, or the alt
text is exactly `icon` or `favicon`. -/
def is_ui_icon (img : ImgTag) (src : Str) : Bool :=
  if is_documentation_image img src then false
  else
    let bySize : Bool :=
      match img.width, img.height with
      | some w, some h =>
        if w ≠ [] ∧ h ≠ [] then
          match attrToInt w, attrToInt h with
          | some wi, some hi => decide (wi ≤ 24) && decide (hi ≤ 24)
          | _, _ => false
        else false
      | _, _ => false
    if bySize then true
    else if img.cssClasses.any (fun cl =>
        ["icon", "favicon"].any fun p => containsSub p.data (lowerStr cl)) then true
    else if icon_url_patterns.any (fun p => containsSub p (lowerStr src)) then true
    else if lowerStr img.alt = "icon".data ∨ lowerStr img.alt = "favicon".data then true
    else false

end ContentParser

/-! ### `src/pdf_generator.py`: page deduplication -/

namespace PDFGenerator

/-- The deduplication key of `_deduplicate_pages`: `final_url` when truthy
(present and non-empty), else `url`. -/
def checkUrl (p : PageContent) : Str :=
  match p.final_url with
  | some f => if f = [] then p.url else f
  | none => p.url

/-- Loop of `PDFGenerator._deduplicate_pages` with its `seen` set explicit. -/
def dedupAux (seen : List Str) : List PageContent → List PageContent
  | [] => []
  | p :: ps =>
    if checkUrl p ∈ seen then dedupAux seen ps
    else p :: dedupAux (insertSet (checkUrl p) seen) ps

/-- `PDFGenerator._deduplicate_pages`: keep the first page per key. -/
def deduplicate_pages (pages : List PageContent) : List PageContent := dedupAux [] pages

/-- Fuel-driven recursion for `keepFirstSpec` (the filtered tail is not a
structural subterm; any fuel at least the list length is enough). -/
def keepFirstAux : Nat → List PageContent → List PageContent
  | _, [] => []
  | fuel + 1, p :: ps => p :: keepFirstAux fuel (ps.filter fun q => checkUrl q ≠ checkUrl p)
  | 0, l => l

/-- The specification's description of deduplication, written independently of
the source loop: keep each page and drop every later page with the same key. -/
def keepFirstSpec (pages : List PageContent) : List PageContent :=
  keepFirstAux pages.length pages

end PDFGenerator

/-! ### Helper lemmas -/

theorem mem_insertSet_self (a : Str) (l : List Str) : a ∈ insertSet a l := by
  unfold insertSet; split
  · assumption
  · exact List.mem_append_right _ (List.mem_singleton.mpr rfl)

theorem insertSet_eq_of_mem {a : Str} {l : List Str} (h : a ∈ l) : insertSet a l = l := by
  unfold insertSet; simp [h]

theorem mem_insertSet_iff (a b : Str) (l : List Str) :
    b ∈ insertSet a l ↔ b = a ∨ b ∈ l := by
  unfold insertSet; split
  · constructor
    · exact fun h => Or.inr h
    · rintro (rfl | h) <;> assumption
  · simp [or_comm]

namespace URLManager

theorem normalize_url_empty_of_nil (base : Str) : normalize_url base [] = [] := rfl

theorem should_crawl_nil (domain : Str) : should_crawl domain [] = false := rfl

end URLManager

/-! ### Concrete scenario states -/

namespace URLManager

/-- The C1 scenario: base `https://docs.example.com/`, cap 5. -/
def capS0 : URLManager := make "https://docs.example.com/".data (some 5)

/-- After adding the linked page `/`. -/
def capS1 : URLManager := (add_url capS0 "/".data).2

/-- After adding `/getting-started`. -/
def capS2 : URLManager := (add_url capS1 "/getting-started".data).2

/-- After adding `/features`. -/
def capS3 : URLManager := (add_url capS2 "/features".data).2

/-- After adding `/settings`. -/
def capS4 : URLManager := (add_url capS3 "/settings".data).2

/-- After adding `/troubleshooting`. -/
def capS5 : URLManager := (add_url capS4 "/troubleshooting".data).2

/-- After adding `/blog/extra`: the final state of the scenario. -/
def capS6 : URLManager := (add_url capS5 "/blog/extra".data).2

/-- A fragment-free URL and a fragment-bearing variant used against C2. -/
def dupA : Str := "https://docs.example.com/page".data

/-- The same URL with a fragment appended. -/
def dupB : Str := "https://docs.example.com/page#frag".data

/-- Frontier with no page cap, directly after construction. -/
def dupS0 : URLManager := make "https://docs.example.com/".data none

/-- Result of adding `dupA` (accepted). -/
def dupAdd1 : Bool × URLManager := add_url dupS0 dupA

/-- State after popping the queue twice (the base URL, then `dupA`). -/
def dupDrained : URLManager := (get_next_url (get_next_url dupAdd1.2).2).2

/-- Result of adding `dupB` after the queue was drained (accepted again). -/
def dupAdd2 : Bool × URLManager := add_url dupDrained dupB

/-- A URL used for the mark-operation counterexamples. -/
def markU : Str := "https://docs.example.com/page".data

/-- Fresh frontier for the mark-operation counterexamples. -/
def markS0 : URLManager := make "https://docs.example.com/".data none

end URLManager

/-- C1: the claim asserts the six-link scenario at cap 5 ends with
`discovered=5` and `skipped=1`. It does not: the constructor's own `add_url`
of the base URL occupies one of the five slots and the link `/` normalizes to
`https://docs.example.com/`, distinct from the stripped base
`https://docs.example.com`, so two links (`/troubleshooting` and
`/blog/extra`) are skipped: the final statistics are `discovered=5`,
`skipped=2`. -/
theorem c1_cap_counterexample :
    URLManager.capS6.total_found = 5 ∧ URLManager.capS6.skipped = 2 ∧
      ¬ URLManager.capS6.skipped = 1 := by
  decide

/-- C2: the claim asserts that for URLs normalizing identically, `add_url`
accepts at most one across every operation sequence. Counterexample: accept
`dupA`, drain the queue with `get_next_url` (no `mark_visited`), then add
`dupB`, which normalizes to the same canonical URL yet is accepted again —
the duplicate check consults only the queue and the visited set. -/
theorem c2_dup_counterexample :
    URLManager.normalize_url URLManager.dupS0.base_url URLManager.dupA =
      URLManager.normalize_url URLManager.dupS0.base_url URLManager.dupB ∧
    URLManager.dupAdd1.1 = true ∧ URLManager.dupAdd2.1 = true := by
  decide

/-- C5: the claim asserts a second `mark_visited` of the same URL leaves the
state, counters included, identical. Counterexample: from a fresh frontier,
one call gives `visited = 1`, two calls give `visited = 2`, and likewise for
`mark_failed`, so the states differ. -/
theorem c5_mark_counterexample :
    (URLManager.mark_visited URLManager.markS0 URLManager.markU).visited = 1 ∧
    (URLManager.mark_visited (URLManager.mark_visited URLManager.markS0 URLManager.markU)
        URLManager.markU).visited = 2 ∧
    URLManager.mark_visited (URLManager.mark_visited URLManager.markS0 URLManager.markU)
        URLManager.markU ≠
      URLManager.mark_visited URLManager.markS0 URLManager.markU ∧
    (URLManager.mark_failed (URLManager.mark_failed URLManager.markS0 URLManager.markU)
        URLManager.markU).failed = 2 := by
  decide

/-- C6: the claim asserts every URL occupies at most one of the frontier
states under any operation sequence. Counterexample: `mark_visited` then
`mark_failed` on the same URL (a reachable sequence from construction) leaves
its canonical form in the visited set and the failed set simultaneously. -/
theorem c6_state_counterexample :
    URLManager.normalize_url URLManager.markS0.base_url URLManager.markU ∈
      (URLManager.mark_failed (URLManager.mark_visited URLManager.markS0 URLManager.markU)
          URLManager.markU).visited_urls ∧
    URLManager.normalize_url URLManager.markS0.base_url URLManager.markU ∈
      (URLManager.mark_failed (URLManager.mark_visited URLManager.markS0 URLManager.markU)
          URLManager.markU).failed_urls := by
  decide

/-- C3: `generate_order_key` is pure and ranks the priority slugs among
themselves in declared order, but root does not sort first: the generic path
`about` receives key `000_about`, which sorts strictly before the root key
`000_index` and before every priority key such as `001_getting_started` —
contradicting the source's own comment that root/index pages are "highest
priority". -/
theorem c3_orderkey_root_bug :
    PageSorter.generate_order_key "https://docs.example.com/about".data = "000_about".data ∧
    PageSorter.generate_order_key "https://docs.example.com/".data = "000_index".data ∧
    PageSorter.generate_order_key "https://docs.example.com/getting-started".data =
      "001_getting_started".data ∧
    ltStr "000_about".data "000_index".data = true ∧
    ltStr "000_about".data "001_getting_started".data = true := by
  decide

/-- C9: the claim asserts `PageSorter.generate_order_key` and
`PageContent._generate_order_key` agree for every URL. Counterexample: on
`/getting-started` the sorter's priority table yields `001_getting_started`
while the model's derivation yields `000_getting_started`. -/
theorem c9_keys_counterexample :
    PageSorter.generate_order_key "https://docs.example.com/getting-started".data =
      "001_getting_started".data ∧
    PageContent.generate_order_key_model "https://docs.example.com/getting-started".data =
      "000_getting_started".data ∧
    PageSorter.generate_order_key "https://docs.example.com/getting-started".data ≠
      PageContent.generate_order_key_model "https://docs.example.com/getting-started".data := by
  decide

namespace URLManager

theorem add_url_max_pages (s : URLManager) (u : Str) :
    (add_url s u).2.max_pages = s.max_pages := by
  unfold add_url
  dsimp only
  repeat' split
  all_goals rfl

theorem get_next_url_fields (s : URLManager) :
    (get_next_url s).2.max_pages = s.max_pages ∧
      (get_next_url s).2.total_found = s.total_found ∧
      (get_next_url s).2.skipped_urls = s.skipped_urls := by
  unfold get_next_url
  split <;> exact ⟨rfl, rfl, rfl⟩

/-- Preservation of the page-cap invariant by one `add_url` step: the
discovered count stays at most the cap, and once anything was skipped the
count has pinned at the cap. -/
theorem add_url_cap_inv {s : URLManager} {m : Nat} (u : Str)
    (hm : s.max_pages = some m) (hm0 : m ≠ 0)
    (h1 : s.total_found ≤ m) (h2 : s.skipped_urls ≠ [] → s.total_found = m) :
    (add_url s u).2.total_found ≤ m ∧
      ((add_url s u).2.skipped_urls ≠ [] → (add_url s u).2.total_found = m) := by
  unfold add_url
  dsimp only
  repeat' split
  · exact ⟨h1, h2⟩
  · exact ⟨h1, h2⟩
  · next hcap =>
    refine ⟨h1, fun _ => ?_⟩
    unfold capReached at hcap
    rw [hm] at hcap
    simp at hcap
    exact le_antisymm h1 hcap.2
  · next hcap =>
    unfold capReached at hcap
    rw [hm] at hcap
    simp [hm0] at hcap
    refine ⟨hcap, fun hne => absurd (h2 hne) (by omega)⟩
  · exact ⟨h1, h2⟩

/-- The page-cap invariant holds in every reachable state of a positively
capped frontier. -/
theorem reachable_cap_inv {s : URLManager} (h : Reachable s) :
    ∀ m, s.max_pages = some m → m ≠ 0 →
      s.total_found ≤ m ∧ (s.skipped_urls ≠ [] → s.total_found = m) := by
  induction h with
  | made base mp =>
    intro m hm hm0
    unfold make at hm ⊢
    rw [add_url_max_pages] at hm
    exact add_url_cap_inv _ hm hm0 (Nat.zero_le m) (fun hne => absurd rfl hne)
  | add url _ ih =>
    intro m hm hm0
    rw [add_url_max_pages] at hm
    exact add_url_cap_inv url hm hm0 (ih m hm hm0).1 (ih m hm hm0).2
  | next _ ih =>
    intro m hm hm0
    obtain ⟨f1, f2, f3⟩ := get_next_url_fields _
    rw [f1] at hm
    rw [f2, f3]
    exact ih m hm hm0
  | visit url _ ih => exact ih
  | fail url _ ih => exact ih

/-- Characterization of a successful `add_url`: the URL is non-empty,
crawlable, not queued and not visited, the cap guard did not fire, and the
state change is exactly an append plus a discovery count. -/
theorem add_url_true_spec {s : URLManager} {u : Str} (h : (add_url s u).1 = true) :
    u ≠ [] ∧ should_crawl s.domain (normalize_url s.base_url u) = true ∧
      normalize_url s.base_url u ∉ s.visited_urls ∧
      normalize_url s.base_url u ∉ s.urls_to_visit ∧
      add_url s u = (true,
        { s with urls_to_visit := s.urls_to_visit ++ [normalize_url s.base_url u],
                 total_found := s.total_found + 1 }) := by
  unfold add_url at h ⊢
  dsimp only at h ⊢
  repeat' split at h
  case _ => exact absurd h (by simp)
  case _ => exact absurd h (by simp)
  case _ => exact absurd h (by simp)
  case _ h1 h2 h3 h4 =>
    push_neg at h3
    exact ⟨h1, h2, h3.1, h3.2, by simp [h1, h2, h4, not_or.mpr h3]⟩
  case _ => exact absurd h (by simp)

end URLManager

namespace URLManager

/-- `capS6` is reachable: it is built from construction by `add_url` calls. -/
theorem reachable_capS6 : Reachable capS6 :=
  .add _ (.add _ (.add _ (.add _ (.add _ (.add _ (.made _ _))))))

/-- `capS5` is reachable as well. -/
theorem reachable_capS5 : Reachable capS5 :=
  .add _ (.add _ (.add _ (.add _ (.add _ (.made _ _)))))

end URLManager

/-- C1 (amended): with a positive page cap, the discovered count of every
reachable frontier state never exceeds the cap; once it has reached the cap,
adding a new, crawlable, non-duplicate URL returns `false`, records the URL
in the skipped set, increments the skipped counter, and leaves the queue
unchanged. In the six-link scenario at cap 5, the constructor's initial add
of the base URL occupies one slot and `/` is not a duplicate of the stripped
base, so the final statistics are `discovered=5` and `skipped=2`. -/
theorem c1_cap_amended :
    (∀ s : URLManager, URLManager.Reachable s → ∀ m, s.max_pages = some m → m ≠ 0 →
        s.total_found ≤ m) ∧
    (∀ (s : URLManager) (u : Str) (m : Nat), s.max_pages = some m → m ≠ 0 →
        s.total_found = m → u ≠ [] →
        URLManager.should_crawl s.domain (URLManager.normalize_url s.base_url u) = true →
        URLManager.normalize_url s.base_url u ∉ s.visited_urls →
        URLManager.normalize_url s.base_url u ∉ s.urls_to_visit →
        URLManager.add_url s u = (false,
          { s with
              skipped_urls := insertSet (URLManager.normalize_url s.base_url u) s.skipped_urls,
              skipped := s.skipped + 1 })) ∧
    URLManager.capS6.total_found = 5 ∧ URLManager.capS6.skipped = 2 := by
  refine ⟨?_, ?_, by decide, by decide⟩
  · intro s hs m hm hm0
    exact (URLManager.reachable_cap_inv hs m hm hm0).1
  · intro s u m hm hm0 htot hu hcrawl hvis hq
    have hcap : URLManager.capReached s = true := by
      unfold URLManager.capReached
      rw [hm]
      simp [hm0, htot]
    unfold URLManager.add_url
    dsimp only
    simp [hu, hcrawl, hcap, not_or.mpr ⟨hvis, hq⟩]

/-- Witness for C1 (amended): the cap bound at the reachable scenario state
`capS6`, and the skip behaviour of the sixth link added at `capS5`, whose
discovered count already equals the cap. -/
theorem c1_cap_amended_witness :
    URLManager.capS6.total_found ≤ 5 ∧
    URLManager.add_url URLManager.capS5 "/blog/extra".data = (false,
      { URLManager.capS5 with
          skipped_urls := insertSet
            (URLManager.normalize_url URLManager.capS5.base_url "/blog/extra".data)
            URLManager.capS5.skipped_urls,
          skipped := URLManager.capS5.skipped + 1 }) :=
  ⟨c1_cap_amended.1 URLManager.capS6 URLManager.reachable_capS6 5 (by decide) (by decide),
   c1_cap_amended.2.1 URLManager.capS5 "/blog/extra".data 5 (by decide) (by decide)
     (by decide) (by decide) (by decide) (by decide) (by decide)⟩

/-- C2 (amended): two URLs with the same canonical form are accepted at most
once as long as the canonical URL is still queued or visited when the later
add occurs; in particular an `add_url` immediately following an accepted
`add_url` of an equivalent URL is rejected and counted as a duplicate. After
`get_next_url` removes the URL without `mark_visited` (or when it only sits
in the failed or skipped sets, which the duplicate check does not consult),
an equivalent URL can be accepted again, as the counterexample shows. -/
theorem c2_dup_amended :
    ∀ (s : URLManager) (a b : Str),
      URLManager.normalize_url s.base_url a = URLManager.normalize_url s.base_url b →
      (URLManager.add_url s a).1 = true →
      (URLManager.add_url (URLManager.add_url s a).2 b).1 = false ∧
      (URLManager.add_url (URLManager.add_url s a).2 b).2.duplicates = s.duplicates + 1 := by
  intro s a b hab h
  obtain ⟨ha, hcrawl, hvis, hq, heq⟩ := URLManager.add_url_true_spec h
  have hb : b ≠ [] := by
    intro hbnil
    rw [hbnil] at hab
    rw [URLManager.normalize_url_empty_of_nil] at hab
    rw [hab] at hcrawl
    exact absurd hcrawl (by rw [URLManager.should_crawl_nil]; simp)
  rw [heq]
  unfold URLManager.add_url
  dsimp only
  rw [if_neg hb]
  have hnb : URLManager.normalize_url s.base_url b =
      URLManager.normalize_url s.base_url a := hab.symm
  rw [hnb, if_pos hcrawl]
  rw [if_pos (Or.inr (List.mem_append_right _ (List.mem_singleton.mpr rfl)))]
  exact ⟨rfl, rfl⟩

/-- Witness for C2 (amended): the fragment-bearing variant `dupB` added right
after its fragment-free twin `dupA` was accepted is rejected as a duplicate. -/
theorem c2_dup_amended_witness :
    (URLManager.add_url (URLManager.add_url URLManager.dupS0 URLManager.dupA).2
        URLManager.dupB).1 = false ∧
    (URLManager.add_url (URLManager.add_url URLManager.dupS0 URLManager.dupA).2
        URLManager.dupB).2.duplicates = URLManager.dupS0.duplicates + 1 :=
  c2_dup_amended URLManager.dupS0 URLManager.dupA URLManager.dupB (by decide) (by decide)

/-- C5 (amended): the membership sets are idempotent — a second
`mark_visited` (resp. `mark_failed`) of the same URL changes nothing except
the corresponding counter, which increments unconditionally on every call, so
the full state after two calls differs from the state after one by exactly
one extra count. -/
theorem c5_mark_amended :
    ∀ (s : URLManager) (u : Str),
      URLManager.mark_visited (URLManager.mark_visited s u) u =
        { URLManager.mark_visited s u with
            visited := (URLManager.mark_visited s u).visited + 1 } ∧
      URLManager.mark_failed (URLManager.mark_failed s u) u =
        { URLManager.mark_failed s u with
            failed := (URLManager.mark_failed s u).failed + 1 } := by
  intro s u
  constructor
  · unfold URLManager.mark_visited
    dsimp only
    rw [insertSet_eq_of_mem (mem_insertSet_self _ _)]
  · unfold URLManager.mark_failed
    dsimp only
    rw [insertSet_eq_of_mem (mem_insertSet_self _ _)]

/-- C6 (amended): a URL may occupy several frontier states at once (see the
counterexample), so mutual exclusion fails; what holds is: a successful
`add_url` queues only URLs that were neither queued nor visited; in a
positively capped reachable state in which anything was skipped the cap is
pinned, so `add_url` never queues anything again (skipped is terminal); and
no operation ever removes a URL from the skipped set. -/
theorem c6_state_amended :
    (∀ (s : URLManager) (u : Str), (URLManager.add_url s u).1 = true →
        URLManager.normalize_url s.base_url u ∉ s.urls_to_visit ∧
        URLManager.normalize_url s.base_url u ∉ s.visited_urls) ∧
    (∀ (s : URLManager) (u : Str) (m : Nat), URLManager.Reachable s →
        s.max_pages = some m → m ≠ 0 → s.skipped_urls ≠ [] →
        (URLManager.add_url s u).1 = false ∧
        (URLManager.add_url s u).2.urls_to_visit = s.urls_to_visit) ∧
    (∀ (s : URLManager) (u v : Str), v ∈ s.skipped_urls →
        v ∈ (URLManager.add_url s u).2.skipped_urls ∧
        v ∈ (URLManager.get_next_url s).2.skipped_urls ∧
        v ∈ (URLManager.mark_visited s u).skipped_urls ∧
        v ∈ (URLManager.mark_failed s u).skipped_urls) := by
  refine ⟨?_, ?_, ?_⟩
  · intro s u h
    obtain ⟨_, _, hvis, hq, _⟩ := URLManager.add_url_true_spec h
    exact ⟨hq, hvis⟩
  · intro s u m hs hm hm0 hsk
    have htot : s.total_found = m := (URLManager.reachable_cap_inv hs m hm hm0).2 hsk
    have hcap : URLManager.capReached s = true := by
      unfold URLManager.capReached
      rw [hm]
      simp [hm0, htot]
    unfold URLManager.add_url
    dsimp only
    rw [if_pos hcap]
    repeat' split
    all_goals exact ⟨rfl, rfl⟩
  · intro s u v hv
    refine ⟨?_, ?_, hv, hv⟩
    · unfold URLManager.add_url
      dsimp only
      repeat' split
      · exact hv
      · exact hv
      · exact (mem_insertSet_iff _ _ _).mpr (Or.inr hv)
      · exact hv
      · exact hv
    · exact ((URLManager.get_next_url_fields s).2.2).symm ▸ hv

/-- Witness for C6 (amended): the accepted add of `dupA` was neither queued
nor visited beforehand; at the reachable capped state `capS6` (whose skipped
set is non-empty) a further add of `/new` is rejected without queueing; and
the skipped URL `/troubleshooting` survives every operation. -/
theorem c6_state_amended_witness :
    (URLManager.normalize_url URLManager.dupS0.base_url URLManager.dupA ∉
        URLManager.dupS0.urls_to_visit ∧
      URLManager.normalize_url URLManager.dupS0.base_url URLManager.dupA ∉
        URLManager.dupS0.visited_urls) ∧
    ((URLManager.add_url URLManager.capS6 "/new".data).1 = false ∧
      (URLManager.add_url URLManager.capS6 "/new".data).2.urls_to_visit =
        URLManager.capS6.urls_to_visit) ∧
    "https://docs.example.com/troubleshooting".data ∈
      (URLManager.mark_visited URLManager.capS6 "/x".data).skipped_urls :=
  ⟨c6_state_amended.1 URLManager.dupS0 URLManager.dupA (by decide),
   c6_state_amended.2.1 URLManager.capS6 "/new".data 5 URLManager.reachable_capS6
     (by decide) (by decide) (by decide),
   (c6_state_amended.2.2 URLManager.capS6 "/x".data
     "https://docs.example.com/troubleshooting".data (by decide)).2.2.1⟩

namespace PDFGenerator

theorem keepFirstAux_eq :
    ∀ (f : Nat) (l : List PageContent), l.length ≤ f → keepFirstAux f l = keepFirstSpec l := by
  intro f
  induction f using Nat.strong_induction_on with
  | _ f ih =>
    intro l hl
    cases l with
    | nil => cases f <;> rfl
    | cons p ps =>
      cases f with
      | zero => simp at hl
      | succ g =>
        have hfil : (ps.filter fun q => checkUrl q ≠ checkUrl p).length ≤ ps.length :=
          List.length_filter_le _ _
        have hg : ps.length ≤ g := by simpa using hl
        show p :: keepFirstAux g (ps.filter fun q => checkUrl q ≠ checkUrl p) = _
        rw [ih g (Nat.lt_succ_self g) _ (le_trans hfil hg)]
        show _ = keepFirstAux (ps.length + 1) (p :: ps)
        show _ = p :: keepFirstAux ps.length (ps.filter fun q => checkUrl q ≠ checkUrl p)
        rw [ih ps.length (Nat.lt_succ_of_le hg) _ hfil]

theorem keepFirstSpec_cons (p : PageContent) (ps : List PageContent) :
    keepFirstSpec (p :: ps) =
      p :: keepFirstSpec (ps.filter fun q => checkUrl q ≠ checkUrl p) := by
  show keepFirstAux (ps.length + 1) (p :: ps) = _
  show p :: keepFirstAux ps.length (ps.filter fun q => checkUrl q ≠ checkUrl p) = _
  rw [keepFirstAux_eq ps.length _ (List.length_filter_le _ _)]

theorem dedupAux_eq :
    ∀ (l : List PageContent) (seen : List Str),
      dedupAux seen l = keepFirstSpec (l.filter fun p => checkUrl p ∉ seen) := by
  intro l
  induction l with
  | nil => intro seen; rfl
  | cons p ps ih =>
    intro seen
    by_cases h : checkUrl p ∈ seen
    · rw [show dedupAux seen (p :: ps) = dedupAux seen ps by simp [dedupAux, h]]
      rw [ih seen]
      congr 1
      simp [List.filter, h]
    · rw [show dedupAux seen (p :: ps) =
          p :: dedupAux (insertSet (checkUrl p) seen) ps by simp [dedupAux, h]]
      rw [ih (insertSet (checkUrl p) seen)]
      rw [show (p :: ps).filter (fun q => checkUrl q ∉ seen) =
          p :: ps.filter (fun q => checkUrl q ∉ seen) by simp [List.filter, h]]
      rw [keepFirstSpec_cons]
      congr 1
      rw [List.filter_filter]
      congr 1
      apply List.filter_congr
      intro q _
      simp [mem_insertSet_iff]

end PDFGenerator

/-- C7: PDF-assembly deduplication keys every page by its final URL when
truthy, else by its request URL, and keeps exactly the first page per key —
`_deduplicate_pages` equals the keep-first specification on every input, and
two pages sharing a key collapse to the first by input order. -/
theorem c7_dedup_first :
    (∀ pages : List PageContent,
        PDFGenerator.deduplicate_pages pages = PDFGenerator.keepFirstSpec pages) ∧
    (∀ p q : PageContent, PDFGenerator.checkUrl p = PDFGenerator.checkUrl q →
        PDFGenerator.deduplicate_pages [p, q] = [p]) := by
  have hmain : ∀ pages : List PageContent,
      PDFGenerator.deduplicate_pages pages = PDFGenerator.keepFirstSpec pages := by
    intro pages
    rw [PDFGenerator.deduplicate_pages, PDFGenerator.dedupAux_eq]
    congr 1
    simp
  refine ⟨hmain, fun p q hpq => ?_⟩
  rw [hmain [p, q]]
  rw [PDFGenerator.keepFirstSpec_cons]
  simp [hpq]
  rfl

/-- Witness for C7: two concrete pages sharing the final URL
`https://d.com/x` collapse to the first. -/
theorem c7_dedup_first_witness :
    PDFGenerator.deduplicate_pages
      [PageContent.make "https://d.com/a".data "A".data "h".data "t".data [] []
          (some "https://d.com/x".data),
        PageContent.make "https://d.com/b".data "B".data "h".data "t".data [] []
          (some "https://d.com/x".data)] =
      [PageContent.make "https://d.com/a".data "A".data "h".data "t".data [] []
          (some "https://d.com/x".data)] :=
  c7_dedup_first.2 _ _ (by decide)

/-- C8: an image whose source URL matches a documentation pattern and whose
alt text is longer than 10 characters is classified as content —
`_is_ui_icon` returns `false` — regardless of the declared width and height
attributes, because `_is_documentation_image` accepts on the alt-text rule
before any dimension check and `_is_ui_icon` consults it first. -/
theorem c8_doc_image_content :
    ∀ (img : ContentParser.ImgTag) (src : Str),
      (ContentParser.doc_image_patterns.any fun p => containsSub p (lowerStr src)) = true →
      (stripWs img.alt).length > 10 →
      ContentParser.is_ui_icon img src = false := by
  intro img src _ halt
  have hdoc : ContentParser.is_documentation_image img src = true := by
    unfold ContentParser.is_documentation_image
    have hne : stripWs img.alt ≠ [] := by
      intro h
      rw [h] at halt
      simp at halt
    dsimp only
    repeat' split
    all_goals first
      | rfl
      | (exfalso; simp_all)
  unfold ContentParser.is_ui_icon
  rw [if_pos hdoc]

/-- Witness for C8: a 24×24 image under `/images/` with a 22-character alt
text is kept as content. -/
theorem c8_doc_image_content_witness :
    ContentParser.is_ui_icon
      { alt := "codebase indexing view".data, width := some "24".data,
        height := some "24".data, cssClasses := [], hasFrameAncestor := false,
        ancestorClasses := [] }
      "https://docs.example.com/images/codebase.png".data = false :=
  c8_doc_image_content _ _ (by decide) (by decide)

/-- C4: `parse_page` never propagates a pipeline failure — whenever the
pipeline raises, it returns a page whose text is the first at most 1000
characters of the raw HTML's stripped text, whose markup wraps that preview
in the failure-marker paragraph, whose title falls back to `Error Page`
exactly when the input page has no title, and which satisfies
`PageContent.is_valid` (given the constructor-guaranteed non-empty URL). -/
theorem c4_parse_fallback :
    ∀ (g : Str → Str) (pl : PageData → Except Str ContentParser.ParsedParts)
      (pd : PageData) (e : Str), pl pd = .error e → pd.url ≠ [] →
      (ContentParser.parse_page g pl pd).text_content = (g pd.html_content).take 1000 ∧
      (ContentParser.parse_page g pl pd).text_content.length ≤ 1000 ∧
      (ContentParser.parse_page g pl pd).content_html =
        "<p>Content parsing failed. Raw text preview:</p><pre>".data ++
          (ContentParser.parse_page g pl pd).text_content ++ "</pre>".data ∧
      (pd.title = [] → (ContentParser.parse_page g pl pd).title = "Error Page".data) ∧
      (pd.title ≠ [] → (ContentParser.parse_page g pl pd).title = pd.title) ∧
      (ContentParser.parse_page g pl pd).url = pd.url ∧
      (ContentParser.parse_page g pl pd).images = [] ∧
      (ContentParser.parse_page g pl pd).is_valid = true := by
  intro g pl pd e herr hurl
  have htitle : (if pd.title = [] then "Error Page".data else pd.title) ≠ [] := by
    split
    · simp
    · assumption
  unfold ContentParser.parse_page
  rw [herr]
  unfold PageContent.make
  dsimp only
  rw [if_neg htitle]
  refine ⟨rfl, ?_, rfl, ?_, ?_, rfl, rfl, ?_⟩
  · rw [List.length_take]
    exact min_le_left _ _
  · intro h
    rw [if_pos h]
  · intro h
    rw [if_neg h]
  · unfold PageContent.is_valid
    dsimp only
    simp [hurl, htitle]

/-- Witness for C4: a concrete page whose pipeline raises produces the marker
fallback with the defaulted title. -/
theorem c4_parse_fallback_witness :
    (ContentParser.parse_page id (fun _ => .error "boom".data)
        { url := "https://d.com/a".data, title := [], html_content := "hello world".data,
          status_code := 200, final_url := none }).text_content =
      "hello world".data.take 1000 ∧
    (ContentParser.parse_page id (fun _ => .error "boom".data)
        { url := "https://d.com/a".data, title := [], html_content := "hello world".data,
          status_code := 200, final_url := none }).title = "Error Page".data :=
  have h := c4_parse_fallback id (fun _ => .error "boom".data)
    { url := "https://d.com/a".data, title := [], html_content := "hello world".data,
      status_code := 200, final_url := none } "boom".data rfl (by decide)
  ⟨h.1, h.2.2.2.1 rfl⟩

/-! ### String lemmas for the title and order-key guarantees -/

theorem head_dropWhile_ne (c : Char) (l : Str) :
    (l.dropWhile (· = c)).head? ≠ some c := by
  induction l with
  | nil => simp [List.dropWhile]
  | cons x xs ih =>
    rw [List.dropWhile_cons]
    split
    · exact ih
    · next hx =>
      simp only [List.head?_cons, ne_eq, Option.some.injEq]
      intro hxc
      exact hx (by simp [hxc])

theorem getLast_rstripChar_ne (c : Char) (s : Str) :
    (rstripChar c s).getLast? ≠ some c := by
  unfold rstripChar
  rw [List.getLast?_reverse]
  exact head_dropWhile_ne c s.reverse

theorem getLast_stripChar_ne (c : Char) (s : Str) :
    (stripChar c s).getLast? ≠ some c :=
  getLast_rstripChar_ne c _

theorem splitChar_ne_nil (c : Char) (l : Str) : splitChar c l ≠ [] := by
  cases l with
  | nil => simp [splitChar]
  | cons x xs =>
    unfold splitChar
    dsimp only
    split
    · simp
    · split <;> simp

theorem getLastD_of_ne_nil {r : List Str} (h : r ≠ []) (d d' : Str) :
    r.getLastD d = r.getLastD d' := by
  cases r with
  | nil => exact absurd rfl h
  | cons a t => rw [List.getLastD_cons, List.getLastD_cons]

theorem lastStr_splitChar_ne_nil (c : Char) :
    ∀ l : Str, l ≠ [] → l.getLast? ≠ some c → lastStr (splitChar c l) ≠ [] := by
  intro l
  induction l with
  | nil => intro h; exact absurd rfl h
  | cons x xs ih =>
    intro _ hlast
    cases xs with
    | nil =>
      have hx : x ≠ c := by
        intro hxc
        exact hlast (by simp [hxc])
      simp [splitChar, hx, lastStr]
    | cons y ys =>
      rw [List.getLast?_cons_cons] at hlast
      have hr := ih (by simp) hlast
      have hrne := splitChar_ne_nil c (y :: ys)
      show lastStr (splitChar c (x :: y :: ys)) ≠ []
      unfold splitChar
      dsimp only
      split
      · unfold lastStr at hr ⊢
        rwa [List.getLastD_cons]
      · obtain ⟨s, ss, hss⟩ := List.exists_cons_of_ne_nil hrne
        rw [hss]
        dsimp only
        cases ss with
        | nil => simp [lastStr]
        | cons z zs =>
          unfold lastStr at hr ⊢
          rw [hss] at hr
          rw [List.getLastD_cons] at hr ⊢
          rwa [getLastD_of_ne_nil (by simp) _ s]

theorem length_pyTitleAux (s : Str) : ∀ b : Bool, (PageContent.pyTitleAux b s).length = s.length := by
  induction s with
  | nil => intro b; rfl
  | cons x xs ih =>
    intro b
    unfold PageContent.pyTitleAux
    simp [ih]

theorem extract_title_ne_nil (url : Str) : PageContent.extract_title_from_url url ≠ [] := by
  unfold PageContent.extract_title_from_url
  dsimp only
  split
  · simp
  · next hpath =>
    have hlast := lastStr_splitChar_ne_nil '/' _ hpath (getLast_stripChar_ne '/' _)
    intro hcontra
    have hlen : (PageContent.pyTitle (replaceChar '_' ' ' (replaceChar '-' ' '
        (lastStr (splitChar '/' (stripChar '/' (pyUrlparse url).path)))))).length = 0 := by
      rw [hcontra]; rfl
    rw [PageContent.pyTitle, length_pyTitleAux] at hlen
    unfold replaceChar at hlen
    rw [List.length_map, List.length_map] at hlen
    exact hlast (List.length_eq_zero.mp hlen)

theorem joinChar_cons_ne_nil (c : Char) (f : Str) (rest : List Str) (hf : f ≠ []) :
    joinChar c (f :: rest) ≠ [] := by
  cases rest <;> simp [joinChar, hf]

theorem generate_order_key_model_ne_nil (url : Str) :
    PageContent.generate_order_key_model url ≠ [] := by
  unfold PageContent.generate_order_key_model
  dsimp only
  split
  · simp
  · obtain ⟨s, ss, hss⟩ :=
      List.exists_cons_of_ne_nil (splitChar_ne_nil '/' (stripChar '/' (pyUrlparse url).path))
    rw [hss]
    rw [show (s :: ss).enum = (0, s) :: ss.enumFrom 1 from rfl]
    rw [List.map_cons]
    exact joinChar_cons_ne_nil _ _ _ (by simp)

/-- C10: every constructed `PageContent` has a non-empty title and a
non-empty order key — `__post_init__` derives the title from the URL
(`Home` for the root path, the humanized last segment otherwise) exactly when
the given title is empty, and derives the order key from the URL exactly when
the given key is empty, so the validity condition on the title holds for
every constructed page. -/
theorem c10_page_defaults :
    ∀ (url title ch tc : Str) (imgs : List Str) (ok : Str) (fu : Option Str),
      (PageContent.make url title ch tc imgs ok fu).title ≠ [] ∧
      (PageContent.make url title ch tc imgs ok fu).order_key ≠ [] ∧
      (title = [] → (PageContent.make url title ch tc imgs ok fu).title =
          PageContent.extract_title_from_url url) ∧
      (title ≠ [] → (PageContent.make url title ch tc imgs ok fu).title = title) ∧
      (ok = [] → (PageContent.make url title ch tc imgs ok fu).order_key =
          PageContent.generate_order_key_model url) ∧
      (title = [] → stripChar '/' (pyUrlparse url).path = [] →
          (PageContent.make url title ch tc imgs ok fu).title = "Home".data) := by
  intro url title ch tc imgs ok fu
  unfold PageContent.make
  dsimp only
  by_cases ht : title = [] <;> by_cases hk : ok = [] <;>
    simp [ht, hk, extract_title_ne_nil, generate_order_key_model_ne_nil]
  all_goals
    intro hpath
    unfold PageContent.extract_title_from_url
    rw [if_pos hpath]

/-- Witness for C10: a page built with an empty title and empty order key
from a root URL gets title `Home` and the derived non-empty key. -/
theorem c10_page_defaults_witness :
    (PageContent.make "https://d.com/".data [] "h".data "t".data [] [] none).title ≠ [] ∧
    (PageContent.make "https://d.com/".data [] "h".data "t".data [] [] none).title =
      "Home".data ∧
    (PageContent.make "https://d.com/".data [] "h".data "t".data [] [] none).order_key =
      PageContent.generate_order_key_model "https://d.com/".data :=
  have h := c10_page_defaults "https://d.com/".data [] "h".data "t".data [] [] none
  ⟨h.1, h.2.2.2.2.2 rfl (by decide), h.2.2.2.2.1 rfl⟩

/-- C9 (amended): the sorter's key and the model's key agree on root and
index paths, but differ in general — the sorter adds a priority table, a
`home` root alias, and extra segment cleaning (see the counterexample at
`/getting-started`). Since `PageContent.__post_init__` always fills an empty
`order_key` at construction with the model's derivation, `sort_pages` (which
only generates keys for pages whose `order_key` is empty) leaves such keys
untouched and sorts by the keys the pages already carry. -/
theorem c9_keys_amended :
    (∀ url : Str,
        stripChar '/' (pyUrlparse url).path = [] ∨
          stripChar '/' (pyUrlparse url).path = "index".data ∨
          stripChar '/' (pyUrlparse url).path = "index.html".data →
        PageSorter.generate_order_key url = PageContent.generate_order_key_model url) ∧
    (∀ pages : List PageContent, (∀ p ∈ pages, p.order_key ≠ []) →
        PageSorter.sort_pages pages = PageSorter.sortByKey pages) ∧
    (∀ (url title ch tc : Str) (imgs : List Str) (fu : Option Str),
        (PageContent.make url title ch tc imgs [] fu).order_key =
          PageContent.generate_order_key_model url) := by
  refine ⟨?_, ?_, ?_⟩
  · intro url h
    unfold PageSorter.generate_order_key PageContent.generate_order_key_model
    dsimp only
    rcases h with h | h | h <;> rw [h] <;> simp
  · intro pages h
    unfold PageSorter.sort_pages
    congr 1
    have : pages.map (fun p =>
        if p.order_key = [] then { p with order_key := PageSorter.generate_order_key p.url }
        else p) = pages.map id := by
      apply List.map_congr_left
      intro p hp
      rw [if_neg (h p hp)]
      rfl
    rw [this, List.map_id]
  · intro url title ch tc imgs fu
    unfold PageContent.make
    dsimp only
    rw [if_pos rfl]

/-- Witness for C9 (amended): the index URL gets the same key from both
derivations, and a singleton page list with a non-empty key is sorted without
regenerating its key. -/
theorem c9_keys_amended_witness :
    PageSorter.generate_order_key "https://d.com/index".data =
      PageContent.generate_order_key_model "https://d.com/index".data ∧
    PageSorter.sort_pages
        [PageContent.make "https://d.com/a".data "A".data "h".data "t".data [] [] none] =
      PageSorter.sortByKey
        [PageContent.make "https://d.com/a".data "A".data "h".data "t".data [] [] none] ∧
    (PageContent.make "https://d.com/a".data "A".data "h".data "t".data [] [] none).order_key =
      PageContent.generate_order_key_model "https://d.com/a".data :=
  ⟨c9_keys_amended.1 "https://d.com/index".data (by decide),
   c9_keys_amended.2.1 _ (by decide),
   c9_keys_amended.2.2 "https://d.com/a".data "A".data "h".data "t".data [] none⟩
